import Mathlib

/-!
Shallow embedding of `sweet/harnesses/cockroachdb.go`: the `CockroachDB`
harness's `CheckPrerequisites`, `Build` and `Run` stages.

External effects (process launches, filesystem purges) are modelled by an
explicit world of outcomes (`BuildWorld`, `RunWorld`): each external step
either succeeds or yields an error string, and the embedded stage returns
the trace of events it performed together with the `error` result the Go
function returns (`none` = `nil`).
-/

namespace Sweet

/-- `filepath.Join(dir, name)` for a directory and a relative path. -/
def pathJoin (dir name : String) : String := dir ++ "/" ++ name

/-! ### Environment builder

Modelled from the spec: the Environment Builder (`Env` in `sweet/common`) is
not under `src/`; only its call sites in `cockroachdb.go` are.  Per the spec it
is an ordered base key/value snapshot plus incremental edits — prepend a value
to a key (creating it if absent) and force-set a key — and `collapse` flattens
it to the `KEY=value` list a process launch needs, each key exactly once, in a
deterministic order. -/

/-- An environment: an ordered list of key/value pairs, keys unique by
construction of the edit operations below. -/
abbrev Env := List (String × String)

/-- Look up a key in an environment. -/
def envLookup (e : Env) (k : String) : Option String :=
  (e.find? (fun p => p.1 = k)).map (fun p => p.2)

/-- Set a key to a value: overwrite in place if present, append if absent. -/
def envSet (e : Env) (k v : String) : Env :=
  if e.any (fun p => p.1 = k) then
    e.map (fun p => if p.1 = k then (k, v) else p)
  else
    e ++ [(k, v)]

/-- Modelled from the spec: `Env.Prefix` — prepend `v` to the current value of
`k`, creating the key if absent. -/
def envPrepend (e : Env) (k v : String) : Env :=
  match envLookup e k with
  | some old => envSet e k (v ++ old)
  | none => envSet e k v

/-- Modelled from the spec: `Env.MustSet` — force-overwrite `k` with `v`. -/
def envMustSet (e : Env) (k v : String) : Env :=
  envSet e k v

/-- One environment edit, as performed at the `Build` call sites. -/
inductive EnvEdit where
  | prepend (k v : String)
  | mustSet (k v : String)
deriving DecidableEq

/-- Apply a single edit. -/
def applyEdit (e : Env) : EnvEdit → Env
  | .prepend k v => envPrepend e k v
  | .mustSet k v => envMustSet e k v

/-- Apply a sequence of edits in declaration order. -/
def applyEdits (base : Env) (edits : List EnvEdit) : Env :=
  edits.foldl applyEdit base

/-- Modelled from the spec: `Env.Collapse` — flatten to the `KEY=value` list a
process launch needs, in the environment's (deterministic) order. -/
def collapse (e : Env) : List String :=
  e.map (fun p => p.1 ++ "=" ++ p.2)

/-! ### Configuration records (`sweet/common`), fields used by this harness -/

/-- The driver-provided `common.Config`: resolved toolchain root plus the
build- and exec-environment base overlays. -/
structure Config where
  goroot : String
  buildEnv : Env
  execEnv : Env

/-- `common.BuildConfig`: the three directories a build reads and writes. -/
structure BuildConfig where
  srcDir : String
  binDir : String
  benchDir : String

/-- `common.RunConfig`: artifact dir, scratch dir, base args, short-mode flag,
and the results sink (modelled as an abstract sink handle). -/
structure RunConfig where
  binDir : String
  tmpDir : String
  args : List String
  short : Bool
  results : Nat

/-! ### CheckPrerequisites -/

/-- `CockroachDB.CheckPrerequisites`, as a function of `runtime.GOARCH`:
errors unless the architecture is `arm64` or `amd64`. -/
def checkPrerequisites (goarch : String) : Option String :=
  if goarch ≠ "arm64" ∧ goarch ≠ "amd64" then
    some "requires amd64 or arm64"
  else
    none

/-! ### Build -/

/-- One step of `CockroachDB.Build`, in source order: an external tool
invocation or a local filesystem action. -/
inductive BuildStep where
  /-- `cfg.GoTool().Do("", "install", pkg)` -/
  | goInstall (pkg : String)
  /-- `exec.Command("bazel", args...)` with working dir `dir` and env `env` -/
  | bazelRun (dir : String) (args : List String) (env : List String)
  /-- `cfg.GoTool().BuildPath(src, dst)` -/
  | goBuildPath (src dst : String)
  /-- `copyFile(dst, src)` -/
  | copyFile (dst src : String)
  /-- `exec.Command("chmod", "-R", mode, path)` -/
  | chmod (mode path : String)
deriving DecidableEq, Inhabited

/-- The environment edits `Build` performs over the build-env base:
prepend `GoRoot/bin:` to `PATH`, then force-set `GOROOT`. -/
def buildEnvEdits (cfg : Config) : List EnvEdit :=
  [ .prepend "PATH" (pathJoin cfg.goroot "bin" ++ ":"),
    .mustSet "GOROOT" cfg.goroot ]

/-- The ordered step list of `CockroachDB.Build`, translated from the source:
bazelisk install, two `bazel run` invocations, `go build` of
`cockroach-short`, copy to the contractual name `cockroach`, build of the
benchmark wrapper, and `chmod`. -/
def buildSteps (cfg : Config) (bcfg : BuildConfig) : List BuildStep :=
  let env := collapse (applyEdits cfg.buildEnv (buildEnvEdits cfg))
  [ .goInstall "github.com/bazelbuild/bazelisk@latest",
    .bazelRun bcfg.srcDir ["run", "//pkg/gen:code"] env,
    .bazelRun bcfg.srcDir
      ["run", "//pkg/cmd/generate-cgo:generate-cgo", "--run_under",
       "cd " ++ bcfg.srcDir ++ " && "] env,
    .goBuildPath (pathJoin bcfg.srcDir "pkg/cmd/cockroach-short") bcfg.binDir,
    .copyFile (pathJoin bcfg.binDir "cockroach")
      (pathJoin bcfg.binDir "cockroach-short"),
    .goBuildPath bcfg.benchDir (pathJoin bcfg.binDir "cockroachdb-bench"),
    .chmod "755" (pathJoin bcfg.binDir "cockroachdb-bench") ]

/-- Outcomes of the external build steps: `stepErr i` is the error (if any)
of the `i`-th step of `buildSteps` (0-based). -/
structure BuildWorld where
  stepErr : Nat → Option String

/-- An observable event of the `Build` stage: a step executed, or the
deferred `bazel clean --expunge` cleanup ran. -/
inductive BuildEvent where
  | step (i : Nat) (s : BuildStep)
  | cleanup
deriving DecidableEq

/-- Run the remaining steps in order starting at index `i`, stopping at the
first failure. -/
def runStepsFrom (w : BuildWorld) : List BuildStep → Nat → List BuildEvent × Option String
  | [], _ => ([], none)
  | s :: ss, i =>
    match w.stepErr i with
    | some e => ([.step i s], some e)
    | none =>
      let rest := runStepsFrom w ss (i + 1)
      (.step i s :: rest.1, rest.2)

/-- `CockroachDB.Build`: runs the bazelisk install first; only if it succeeds
is the deferred `bazel clean` cleanup registered (the `defer` in the source
comes after the install), after which the remaining steps run in order,
stopping at the first failure, and the cleanup runs exactly once when control
leaves the function. A step-0 failure is wrapped as in the source. -/
def build (cfg : Config) (bcfg : BuildConfig) (w : BuildWorld) :
    List BuildEvent × Option String :=
  let steps := buildSteps cfg bcfg
  match w.stepErr 0 with
  | some e => ([.step 0 steps.headI], some ("error building bazelisk: " ++ e))
  | none =>
    let rest := runStepsFrom w steps.tail 1
    (.step 0 steps.headI :: rest.1 ++ [.cleanup], rest.2)

/-- Number of cleanup executions recorded in a build trace. -/
def cleanupCount (evs : List BuildEvent) : Nat :=
  (evs.filter (fun e => match e with | .cleanup => true | _ => false)).length

/-! ### Run -/

/-- Fully resolved description of one benchmark-driver process launch.
`env` is the complete environment of the launched process (`exec.Cmd.Env`
replaces, not merges, the ambient environment when set). -/
structure Invocation where
  command : String
  args : List String
  env : List String
  stdout : Nat
  stderr : Nat
deriving DecidableEq

/-- The hard-coded ordered variant list of `CockroachDB.Run`. -/
def cockroachVariants : List String :=
  ["kv0/nodes=1", "kv50/nodes=1", "kv95/nodes=1",
   "kv0/nodes=3", "kv50/nodes=3", "kv95/nodes=3"]

/-- The argument list `Run` builds for one variant, translated from the
source: base args, then `-bench <variant>`, then the artifact and scratch
paths, then `-short` last if short mode is on. -/
def runArgs (rcfg : RunConfig) (bench : String) : List String :=
  let args := rcfg.args ++
    ["-bench", bench,
     "-cockroachdb-bin", pathJoin rcfg.binDir "cockroach",
     "-tmp", rcfg.tmpDir]
  if rcfg.short then args ++ ["-short"] else args

/-- The process invocation `Run` constructs for one variant: the benchmark
wrapper binary, the built args, the collapsed exec environment, and both
stdio streams connected to the results sink. -/
def runInvocation (cfg : Config) (rcfg : RunConfig) (bench : String) : Invocation :=
  { command := pathJoin rcfg.binDir "cockroachdb-bench"
    args := runArgs rcfg bench
    env := collapse cfg.execEnv
    stdout := rcfg.results
    stderr := rcfg.results }

/-- Outcomes of `Run`'s external effects: `execErr k` is the error (if any)
of the `k`-th variant's process, `purgeErr k` that of the `rmDirContents`
purge following the `k`-th variant. -/
structure RunWorld where
  execErr : Nat → Option String
  purgeErr : Nat → Option String

/-- An observable event of the `Run` stage: a benchmark-driver process launch,
or an `rmDirContents(tmpDir)` purge. -/
inductive RunEvent where
  | invoke (inv : Invocation)
  | purge
deriving DecidableEq

/-- The loop body of `CockroachDB.Run` over a variant list, starting at
variant index `k`: invoke the variant's process; on process failure return the
error at once (no purge); otherwise purge the scratch directory, returning the
purge error if the purge fails, else continue with the next variant. -/
def runLoop (cfg : Config) (rcfg : RunConfig) (w : RunWorld) :
    List String → Nat → List RunEvent × Option String
  | [], _ => ([], none)
  | b :: bs, k =>
    let inv := runInvocation cfg rcfg b
    match w.execErr k with
    | some e => ([.invoke inv], some e)
    | none =>
      match w.purgeErr k with
      | some e => ([.invoke inv, .purge], some e)
      | none =>
        let rest := runLoop cfg rcfg w bs (k + 1)
        (.invoke inv :: .purge :: rest.1, rest.2)

/-- `CockroachDB.Run`: the loop over the hard-coded six-variant list. -/
def run (cfg : Config) (rcfg : RunConfig) (w : RunWorld) :
    List RunEvent × Option String :=
  runLoop cfg rcfg w cockroachVariants 0

/-- The benchmark-driver invocations recorded in a run trace, in order. -/
def invocations (evs : List RunEvent) : List Invocation :=
  evs.filterMap (fun e => match e with | .invoke i => some i | _ => none)

/-- Number of benchmark-driver process launches in a run trace. -/
def invokeCount (evs : List RunEvent) : Nat :=
  (invocations evs).length

/-- Number of scratch-directory purges in a run trace. -/
def purgeCount (evs : List RunEvent) : Nat :=
  (evs.filter (fun e => match e with | .purge => true | _ => false)).length

/-- The trace of a fully successful run of a variant list: each variant's
invocation followed by a purge. -/
def successTrace (cfg : Config) (rcfg : RunConfig) (bs : List String) : List RunEvent :=
  (bs.map (fun b => [RunEvent.invoke (runInvocation cfg rcfg b), RunEvent.purge])).flatten

/-! ### Helper lemmas about run traces -/

theorem invocations_append (a b : List RunEvent) :
    invocations (a ++ b) = invocations a ++ invocations b := by
  simp [invocations]

theorem purgeCount_append (a b : List RunEvent) :
    purgeCount (a ++ b) = purgeCount a + purgeCount b := by
  simp [purgeCount]

theorem invocations_successTrace (cfg : Config) (rcfg : RunConfig) :
    ∀ bs : List String,
      invocations (successTrace cfg rcfg bs) = bs.map (runInvocation cfg rcfg)
  | [] => rfl
  | b :: bs => by
    have ih := invocations_successTrace cfg rcfg bs
    show invocations ([RunEvent.invoke (runInvocation cfg rcfg b), RunEvent.purge]
        ++ successTrace cfg rcfg bs)
      = runInvocation cfg rcfg b :: bs.map (runInvocation cfg rcfg)
    rw [invocations_append, ih]
    rfl

theorem purgeCount_successTrace (cfg : Config) (rcfg : RunConfig) :
    ∀ bs : List String, purgeCount (successTrace cfg rcfg bs) = bs.length
  | [] => rfl
  | b :: bs => by
    have ih := purgeCount_successTrace cfg rcfg bs
    show purgeCount ([RunEvent.invoke (runInvocation cfg rcfg b), RunEvent.purge]
        ++ successTrace cfg rcfg bs) = bs.length + 1
    have h2 : purgeCount [RunEvent.invoke (runInvocation cfg rcfg b), RunEvent.purge] = 1 := rfl
    rw [purgeCount_append, ih, h2]
    omega

/-- A run in which every variant process and every purge succeeds executes
every variant in order, purging after each. -/
theorem runLoop_allSuccess (cfg : Config) (rcfg : RunConfig) (w : RunWorld)
    (hx : ∀ j, w.execErr j = none) (hp : ∀ j, w.purgeErr j = none) :
    ∀ (bs : List String) (i : Nat),
      runLoop cfg rcfg w bs i = (successTrace cfg rcfg bs, none)
  | [], _ => rfl
  | b :: bs, i => by
    simp only [runLoop, hx i, hp i, runLoop_allSuccess cfg rcfg w hx hp bs (i + 1)]
    simp [successTrace]

/-- A run whose first failure is the `k`-th variant's process (indices relative
to start index `i`) executes variants `0..k` and stops at once with that error,
purging only after the `k` successful ones. -/
theorem runLoop_firstExecFail (cfg : Config) (rcfg : RunConfig) (w : RunWorld) :
    ∀ (bs : List String) (i k : Nat) (e : String),
      k < bs.length →
      (∀ j, j < k → w.execErr (i + j) = none) →
      w.execErr (i + k) = some e →
      (∀ j, j < k → w.purgeErr (i + j) = none) →
      runLoop cfg rcfg w bs i =
        (successTrace cfg rcfg (bs.take k)
          ++ [RunEvent.invoke (runInvocation cfg rcfg (bs.getD k ""))], some e)
  | [], _, k, e, hk, _, _, _ => absurd hk (by simp)
  | b :: bs, i, 0, e, hk, hxlt, hxk, hplt => by
    have hx0 : w.execErr i = some e := by simpa using hxk
    simp [runLoop, hx0, successTrace]
  | b :: bs, i, k + 1, e, hk, hxlt, hxk, hplt => by
    have hx0 : w.execErr i = none := by simpa using hxlt 0 (Nat.succ_pos k)
    have hp0 : w.purgeErr i = none := by simpa using hplt 0 (Nat.succ_pos k)
    have hxlt' : ∀ j, j < k → w.execErr (i + 1 + j) = none := by
      intro j hj
      have := hxlt (j + 1) (by omega)
      simpa [Nat.add_assoc, Nat.add_comm 1 j] using this
    have hplt' : ∀ j, j < k → w.purgeErr (i + 1 + j) = none := by
      intro j hj
      have := hplt (j + 1) (by omega)
      simpa [Nat.add_assoc, Nat.add_comm 1 j] using this
    have hxk' : w.execErr (i + 1 + k) = some e := by
      simpa [Nat.add_assoc, Nat.add_comm 1 k] using hxk
    have hk' : k < bs.length := by simpa using Nat.lt_of_succ_lt_succ hk
    simp only [runLoop, hx0, hp0,
      runLoop_firstExecFail cfg rcfg w bs (i + 1) k e hk' hxlt' hxk' hplt']
    simp [successTrace]

/-- A run in which variants `0..k` all succeed but the purge after the `k`-th
variant fails stops at once with the purge error, having invoked `k + 1`
variants. -/
theorem runLoop_firstPurgeFail (cfg : Config) (rcfg : RunConfig) (w : RunWorld) :
    ∀ (bs : List String) (i k : Nat) (e : String),
      k < bs.length →
      (∀ j, j ≤ k → w.execErr (i + j) = none) →
      (∀ j, j < k → w.purgeErr (i + j) = none) →
      w.purgeErr (i + k) = some e →
      runLoop cfg rcfg w bs i =
        (successTrace cfg rcfg (bs.take k)
          ++ [RunEvent.invoke (runInvocation cfg rcfg (bs.getD k "")),
              RunEvent.purge], some e)
  | [], _, k, e, hk, _, _, _ => absurd hk (by simp)
  | b :: bs, i, 0, e, hk, hxle, hplt, hpk => by
    have hx0 : w.execErr i = none := by simpa using hxle 0 (Nat.le_refl 0)
    have hp0 : w.purgeErr i = some e := by simpa using hpk
    simp [runLoop, hx0, hp0, successTrace]
  | b :: bs, i, k + 1, e, hk, hxle, hplt, hpk => by
    have hx0 : w.execErr i = none := by simpa using hxle 0 (Nat.zero_le _)
    have hp0 : w.purgeErr i = none := by simpa using hplt 0 (Nat.succ_pos k)
    have hxle' : ∀ j, j ≤ k → w.execErr (i + 1 + j) = none := by
      intro j hj
      have := hxle (j + 1) (by omega)
      simpa [Nat.add_assoc, Nat.add_comm 1 j] using this
    have hplt' : ∀ j, j < k → w.purgeErr (i + 1 + j) = none := by
      intro j hj
      have := hplt (j + 1) (by omega)
      simpa [Nat.add_assoc, Nat.add_comm 1 j] using this
    have hpk' : w.purgeErr (i + 1 + k) = some e := by
      simpa [Nat.add_assoc, Nat.add_comm 1 k] using hpk
    have hk' : k < bs.length := by simpa using Nat.lt_of_succ_lt_succ hk
    simp only [runLoop, hx0, hp0,
      runLoop_firstPurgeFail cfg rcfg w bs (i + 1) k e hk' hxle' hplt' hpk']
    simp [successTrace]

/-- Every invocation recorded by the run loop is the invocation `Run`
constructs for one of the variants in the list. -/
theorem mem_invocations_runLoop (cfg : Config) (rcfg : RunConfig) (w : RunWorld) :
    ∀ (bs : List String) (i : Nat) (inv : Invocation),
      inv ∈ invocations (runLoop cfg rcfg w bs i).1 →
      ∃ b ∈ bs, inv = runInvocation cfg rcfg b
  | [], _, _, h => absurd h (by simp [runLoop, invocations])
  | b :: bs, i, inv, h => by
    rcases hx : w.execErr i with _ | e
    · rcases hp : w.purgeErr i with _ | e
      · simp only [runLoop, hx, hp, invocations, List.filterMap_cons] at h
        rcases (by simpa [invocations] using h : inv = runInvocation cfg rcfg b
            ∨ inv ∈ invocations (runLoop cfg rcfg w bs (i + 1)).1) with h1 | h2
        · exact ⟨b, by simp, h1⟩
        · obtain ⟨b', hb', he⟩ := mem_invocations_runLoop cfg rcfg w bs (i + 1) inv h2
          exact ⟨b', by simp [hb'], he⟩
      · simp only [runLoop, hx, hp, invocations, List.filterMap_cons] at h
        exact ⟨b, by simp, by simpa [invocations] using h⟩
    · simp only [runLoop, hx, invocations, List.filterMap_cons] at h
      exact ⟨b, by simp, by simpa [invocations] using h⟩

/-! ### Helper lemmas about build traces -/

theorem cleanupCount_append (a b : List BuildEvent) :
    cleanupCount (a ++ b) = cleanupCount a + cleanupCount b := by
  simp [cleanupCount]

/-- The step executor records no cleanup events of its own. -/
theorem cleanupCount_runStepsFrom (w : BuildWorld) :
    ∀ (ss : List BuildStep) (i : Nat), cleanupCount (runStepsFrom w ss i).1 = 0
  | [], _ => rfl
  | s :: ss, i => by
    have ih := cleanupCount_runStepsFrom w ss (i + 1)
    rcases h : w.stepErr i with _ | e
    · simpa [runStepsFrom, h, cleanupCount] using ih
    · simp [runStepsFrom, h, cleanupCount]

theorem take_succ_getD : ∀ (bs : List String) (k : Nat), k < bs.length →
    bs.take (k + 1) = bs.take k ++ [bs.getD k ""]
  | [], k, hk => absurd hk (by simp)
  | b :: bs, 0, _ => rfl
  | b :: bs, k + 1, hk => by
    have ih := take_succ_getD bs k (Nat.lt_of_succ_lt_succ hk)
    simp only [List.take_succ_cons, List.cons_append]
    rw [show (b :: bs).getD (k + 1) "" = bs.getD k "" from rfl, ih]

/-- A wrapped build trace (leading step, inner events, trailing cleanup) has
one more cleanup than the inner events. -/
theorem cleanupCount_wrap (i : Nat) (s : BuildStep) (a : List BuildEvent) :
    cleanupCount (BuildEvent.step i s :: a ++ [BuildEvent.cleanup])
      = cleanupCount a + 1 := by
  have h1 : BuildEvent.step i s :: a ++ [BuildEvent.cleanup]
      = [BuildEvent.step i s] ++ a ++ [BuildEvent.cleanup] := rfl
  have c1 : cleanupCount [BuildEvent.step i s] = 0 := rfl
  have c2 : cleanupCount [BuildEvent.cleanup] = 1 := rfl
  rw [h1, cleanupCount_append, cleanupCount_append, c1, c2]
  omega

/-! ### Concrete fixtures for witnesses and counterexamples -/

/-- A concrete driver configuration. -/
def cfgEx : Config :=
  { goroot := "/goroot"
    buildEnv := [("PATH", "/usr/bin")]
    execEnv := [("HOME", "/home/u")] }

/-- A concrete build configuration. -/
def bcfgEx : BuildConfig :=
  { srcDir := "/src", binDir := "/bin", benchDir := "/bench" }

/-- A concrete run configuration (short mode on). -/
def rcfgEx : RunConfig :=
  { binDir := "/bin", tmpDir := "/tmp/scratch", args := ["-v"],
    short := true, results := 0 }

/-- A run world in which every process and every purge succeeds. -/
def wAllOk : RunWorld :=
  { execErr := fun _ => none, purgeErr := fun _ => none }

/-- A run world in which the second variant's process (index 1) fails and
everything else succeeds. -/
def wBFail : RunWorld :=
  { execErr := fun k => if k = 1 then some "benchmark process failed" else none
    purgeErr := fun _ => none }

/-- A run world in which the purge after the first variant fails and every
process succeeds. -/
def wPurgeFail0 : RunWorld :=
  { execErr := fun _ => none
    purgeErr := fun k => if k = 0 then some "purge failed" else none }

/-- A build world in which every step succeeds. -/
def bwAllOk : BuildWorld := { stepErr := fun _ => none }

/-- A build world in which the very first step (the bazelisk install) fails. -/
def bwStep0Fail : BuildWorld :=
  { stepErr := fun i => if i = 0 then some "install failed" else none }

/-- The argument order the spec's sentence claims for `Run`: base args, then
variant-specific flags, then the short-mode flag if enabled, then the resolved
paths (artifact location, scratch directory). -/
def specRunArgs (rcfg : RunConfig) (bench : String) : List String :=
  rcfg.args ++ ["-bench", bench]
    ++ (if rcfg.short then ["-short"] else [])
    ++ ["-cockroachdb-bin", pathJoin rcfg.binDir "cockroach", "-tmp", rcfg.tmpDir]

/-! ### Claims -/

/-- C5: `CheckPrerequisites` (modelled as a pure function of the host
architecture) succeeds if and only if the architecture is `arm64` or `amd64`,
and returns an error otherwise. -/
theorem C5_checkPrerequisites_iff_arch (g : String) :
    checkPrerequisites g = none ↔ (g = "arm64" ∨ g = "amd64") := by
  unfold checkPrerequisites
  by_cases h1 : g = "arm64" <;> by_cases h2 : g = "amd64" <;> simp [h1, h2]

/-- C8: environment collapse is deterministic — applying the same edit
sequence (such as the `PATH` prepend and `GOROOT` force-set that `Build`
performs) over the same base twice and collapsing yields identical flattened
output both times. -/
theorem C8_collapse_deterministic (base1 base2 : Env) (edits : List EnvEdit)
    (h : base1 = base2) :
    collapse (applyEdits base1 edits) = collapse (applyEdits base2 edits) := by
  rw [h]

/-- C8 witness: the edit sequence `Build` performs, applied over a concrete
base environment, collapses to the same concrete flattened list both times. -/
theorem C8_collapse_deterministic_witness :
    collapse (applyEdits cfgEx.buildEnv (buildEnvEdits cfgEx))
      = collapse (applyEdits cfgEx.buildEnv (buildEnvEdits cfgEx))
    ∧ collapse (applyEdits cfgEx.buildEnv (buildEnvEdits cfgEx))
      = ["PATH=/goroot/bin:/usr/bin", "GOROOT=/goroot"] :=
  ⟨C8_collapse_deterministic cfgEx.buildEnv cfgEx.buildEnv (buildEnvEdits cfgEx) rfl,
   by decide⟩

/-- C4 counterexample: the claimed argument order (short-mode flag before the
resolved paths) differs from the order `Run` actually builds — with base args
`["-v"]` and short mode on, the code places `-short` last, after the artifact
and scratch paths. -/
theorem C4_counterexample :
    runArgs rcfgEx "kv0/nodes=1" ≠ specRunArgs rcfgEx "kv0/nodes=1"
    ∧ runArgs rcfgEx "kv0/nodes=1"
      = ["-v", "-bench", "kv0/nodes=1", "-cockroachdb-bin", "/bin/cockroach",
         "-tmp", "/tmp/scratch", "-short"] := by
  constructor
  · decide
  · decide

/-- C4 (amended): for every variant, `Run` builds the argument list as base
args ++ variant-specific flags ++ resolved paths (artifact location, scratch
directory) ++ short-mode flag if and only if enabled — the short flag comes
last, after the resolved paths. -/
theorem C4_args_order (rcfg : RunConfig) (bench : String) :
    runArgs rcfg bench
      = rcfg.args ++ ["-bench", bench]
        ++ ["-cockroachdb-bin", pathJoin rcfg.binDir "cockroach",
            "-tmp", rcfg.tmpDir]
        ++ (if rcfg.short then ["-short"] else []) := by
  unfold runArgs
  cases h : rcfg.short <;> simp

/-- C9: `Run` iterates exactly the hard-coded six-variant list, in order; when
every process and purge succeeds it performs exactly six benchmark-driver
invocations, one per variant in list order, and returns no error. -/
theorem C9_run_six_variants (cfg : Config) (rcfg : RunConfig) (w : RunWorld)
    (hx : ∀ j, w.execErr j = none) (hp : ∀ j, w.purgeErr j = none) :
    cockroachVariants
      = ["kv0/nodes=1", "kv50/nodes=1", "kv95/nodes=1",
         "kv0/nodes=3", "kv50/nodes=3", "kv95/nodes=3"]
    ∧ invocations (run cfg rcfg w).1 = cockroachVariants.map (runInvocation cfg rcfg)
    ∧ invokeCount (run cfg rcfg w).1 = 6
    ∧ (run cfg rcfg w).2 = none := by
  have h := runLoop_allSuccess cfg rcfg w hx hp cockroachVariants 0
  refine ⟨rfl, ?_, ?_, ?_⟩
  · rw [run, h]
    exact invocations_successTrace cfg rcfg cockroachVariants
  · rw [invokeCount, run, h, invocations_successTrace]
    rfl
  · rw [run, h]

/-- C9 witness: a concrete all-success run performs exactly six invocations. -/
theorem C9_run_six_variants_witness : invokeCount (run cfgEx rcfgEx wAllOk).1 = 6 :=
  (C9_run_six_variants cfgEx rcfgEx wAllOk (fun _ => rfl) (fun _ => rfl)).2.2.1

/-- C1 counterexample: with variants `["a", "b", "c"]` where `"b"` (index 1)
fails, the loop purges the scratch directory once — after the successful
`"a"` — not twice: a failing variant returns at once without a purge. -/
theorem C1_counterexample :
    purgeCount (runLoop cfgEx rcfgEx wBFail ["a", "b", "c"] 0).1 = 1
    ∧ ¬ purgeCount (runLoop cfgEx rcfgEx wBFail ["a", "b", "c"] 0).1 = 2
    ∧ (runLoop cfgEx rcfgEx wBFail ["a", "b", "c"] 0).2
        = some "benchmark process failed" := by
  refine ⟨by decide, by decide, by decide⟩

/-- C1 (amended): `Run` purges the scratch directory only after a variant
that completes successfully; a failing variant makes it return at once with
that error, without purging. With the first failure at index `k`, the loop
performs `k` purges and `k + 1` invocations. -/
theorem C1_purge_only_after_success (cfg : Config) (rcfg : RunConfig)
    (w : RunWorld) (bs : List String) (k : Nat) (e : String)
    (hk : k < bs.length) (hxlt : ∀ j, j < k → w.execErr j = none)
    (hxk : w.execErr k = some e) (hp : ∀ j, w.purgeErr j = none) :
    purgeCount (runLoop cfg rcfg w bs 0).1 = k
    ∧ invokeCount (runLoop cfg rcfg w bs 0).1 = k + 1
    ∧ (runLoop cfg rcfg w bs 0).2 = some e := by
  have hxlt0 : ∀ j, j < k → w.execErr (0 + j) = none := fun j hj => by
    simpa using hxlt j hj
  have hxk0 : w.execErr (0 + k) = some e := by simpa using hxk
  have hplt0 : ∀ j, j < k → w.purgeErr (0 + j) = none := fun j _ => by
    simpa using hp j
  have h := runLoop_firstExecFail cfg rcfg w bs 0 k e hk hxlt0 hxk0 hplt0
  have h6 : purgeCount [RunEvent.invoke (runInvocation cfg rcfg (bs.getD k ""))] = 0 := rfl
  refine ⟨?_, ?_, ?_⟩
  · simp only [h, purgeCount_append, purgeCount_successTrace, h6, List.length_take]
    omega
  · simp only [h, invokeCount, invocations_append, invocations_successTrace]
    simp [invocations, List.length_take]
    omega
  · simp [h]

/-- C1 amended witness: for `["a", "b", "c"]` with `"b"` failing, one purge,
two invocations, and the process error is returned. -/
theorem C1_purge_only_after_success_witness :
    purgeCount (runLoop cfgEx rcfgEx wBFail ["a", "b", "c"] 0).1 = 1
    ∧ (runLoop cfgEx rcfgEx wBFail ["a", "b", "c"] 0).2
        = some "benchmark process failed" :=
  ⟨(C1_purge_only_after_success cfgEx rcfgEx wBFail ["a", "b", "c"] 1
      "benchmark process failed" (by decide)
      (fun j hj => by
        have hne : j ≠ 1 := by omega
        simp [wBFail, hne])
      rfl (fun _ => rfl)).1,
   (C1_purge_only_after_success cfgEx rcfgEx wBFail ["a", "b", "c"] 1
      "benchmark process failed" (by decide)
      (fun j hj => by
        have hne : j ≠ 1 := by omega
        simp [wBFail, hne])
      rfl (fun _ => rfl)).2.2⟩

/-- C3: the run loop stops at the first failing variant and returns its
error: with every purge succeeding, all variants succeeding gives exactly one
invocation per variant and no error; a first process failure at index `k`
(0-based) gives exactly `k + 1` invocations — precisely the variants up to and
including the failing one — and returns that error. -/
theorem C3_first_failure_stops (cfg : Config) (rcfg : RunConfig) (w : RunWorld)
    (bs : List String) (hp : ∀ j, w.purgeErr j = none) :
    ((∀ j, w.execErr j = none) →
      invokeCount (runLoop cfg rcfg w bs 0).1 = bs.length
      ∧ (runLoop cfg rcfg w bs 0).2 = none)
    ∧ (∀ k e, k < bs.length → (∀ j, j < k → w.execErr j = none) →
        w.execErr k = some e →
        invokeCount (runLoop cfg rcfg w bs 0).1 = k + 1
        ∧ (runLoop cfg rcfg w bs 0).2 = some e
        ∧ invocations (runLoop cfg rcfg w bs 0).1
            = (bs.take (k + 1)).map (runInvocation cfg rcfg)) := by
  constructor
  · intro hx
    have h := runLoop_allSuccess cfg rcfg w hx hp bs 0
    constructor
    · simp [invokeCount, h, invocations_successTrace]
    · simp [h]
  · intro k e hk hxlt hxk
    have hxlt0 : ∀ j, j < k → w.execErr (0 + j) = none := fun j hj => by
      simpa using hxlt j hj
    have hxk0 : w.execErr (0 + k) = some e := by simpa using hxk
    have hplt0 : ∀ j, j < k → w.purgeErr (0 + j) = none := fun j _ => by
      simpa using hp j
    have h := runLoop_firstExecFail cfg rcfg w bs 0 k e hk hxlt0 hxk0 hplt0
    refine ⟨?_, ?_, ?_⟩
    · simp only [h, invokeCount, invocations_append, invocations_successTrace]
      simp [invocations, List.length_take]
      omega
    · simp [h]
    · simp only [h, invocations_append, invocations_successTrace]
      rw [take_succ_getD bs k hk]
      simp [invocations]

/-- C3 witness: with `["a", "b", "c"]` and the failure at index 1, exactly two
invocations happen and the error is returned. -/
theorem C3_first_failure_stops_witness :
    invokeCount (runLoop cfgEx rcfgEx wBFail ["a", "b", "c"] 0).1 = 2
    ∧ (runLoop cfgEx rcfgEx wBFail ["a", "b", "c"] 0).2
        = some "benchmark process failed" :=
  ⟨((C3_first_failure_stops cfgEx rcfgEx wBFail ["a", "b", "c"] (fun _ => rfl)).2 1
      "benchmark process failed" (by decide)
      (fun j hj => by
        have hne : j ≠ 1 := by omega
        simp [wBFail, hne])
      rfl).1,
   ((C3_first_failure_stops cfgEx rcfgEx wBFail ["a", "b", "c"] (fun _ => rfl)).2 1
      "benchmark process failed" (by decide)
      (fun j hj => by
        have hne : j ≠ 1 := by omega
        simp [wBFail, hne])
      rfl).2.1⟩

/-- C2 counterexample: when the very first build step — the bazelisk
install — fails, the `bazel clean` cleanup is never registered (the `defer`
in the source comes after the install) and executes zero times, not once. -/
theorem C2_counterexample :
    cleanupCount (build cfgEx bcfgEx bwStep0Fail).1 = 0
    ∧ ¬ cleanupCount (build cfgEx bcfgEx bwStep0Fail).1 = 1
    ∧ (build cfgEx bcfgEx bwStep0Fail).2
        = some "error building bazelisk: install failed" := by
  refine ⟨by decide, by decide, by decide⟩

/-- C2 (amended): the registered cleanup executes exactly once whenever the
first step (the bazelisk install) succeeds — whichever later step fails, and
also on full success — but a failure of the first step itself occurs before
the cleanup is registered, so the cleanup then executes zero times. -/
theorem C2_cleanup_iff_past_install (cfg : Config) (bcfg : BuildConfig)
    (w : BuildWorld) :
    (w.stepErr 0 = none → cleanupCount (build cfg bcfg w).1 = 1)
    ∧ (∀ e, w.stepErr 0 = some e → cleanupCount (build cfg bcfg w).1 = 0) := by
  constructor
  · intro h
    simp only [build, h]
    rw [cleanupCount_wrap, cleanupCount_runStepsFrom]
  · intro e h
    simp [build, h, cleanupCount]

/-- C2 amended witness: a fully successful build runs cleanup exactly once,
and the step-0 failure world runs it zero times. -/
theorem C2_cleanup_iff_past_install_witness :
    cleanupCount (build cfgEx bcfgEx bwAllOk).1 = 1
    ∧ cleanupCount (build cfgEx bcfgEx bwStep0Fail).1 = 0 :=
  ⟨(C2_cleanup_iff_past_install cfgEx bcfgEx bwAllOk).1 rfl,
   (C2_cleanup_iff_past_install cfgEx bcfgEx bwStep0Fail).2 "install failed" rfl⟩

/-- C6: `Build`'s step list copies the build tool's `cockroach-short` artifact
to the contractual name `cockroach` under `binDir`, and `Run`'s argument list
passes exactly that contractual path (`binDir/cockroach`) as the artifact
location, so producer and consumer agree on the name. -/
theorem C6_artifact_name_agreement (cfg : Config) (bcfg : BuildConfig)
    (rcfg : RunConfig) (bench : String) (h : rcfg.binDir = bcfg.binDir) :
    BuildStep.copyFile (pathJoin bcfg.binDir "cockroach")
        (pathJoin bcfg.binDir "cockroach-short") ∈ buildSteps cfg bcfg
    ∧ (∃ pre post, runArgs rcfg bench
        = pre ++ ["-cockroachdb-bin", pathJoin bcfg.binDir "cockroach"] ++ post) := by
  constructor
  · simp [buildSteps]
  · refine ⟨rcfg.args ++ ["-bench", bench],
      ["-tmp", rcfg.tmpDir] ++ (if rcfg.short then ["-short"] else []), ?_⟩
    rw [← h]
    unfold runArgs
    cases hs : rcfg.short <;> simp

/-- C6 witness: with a shared `binDir`, the copy destination and the artifact
path `Run` passes coincide at a concrete configuration. -/
theorem C6_artifact_name_agreement_witness :
    BuildStep.copyFile (pathJoin bcfgEx.binDir "cockroach")
        (pathJoin bcfgEx.binDir "cockroach-short") ∈ buildSteps cfgEx bcfgEx
    ∧ (∃ pre post, runArgs rcfgEx "kv0/nodes=1"
        = pre ++ ["-cockroachdb-bin", pathJoin bcfgEx.binDir "cockroach"] ++ post) :=
  C6_artifact_name_agreement cfgEx bcfgEx rcfgEx "kv0/nodes=1" rfl

/-- C7: every benchmark-driver invocation `Run` launches has its environment
exactly equal to the collapsed exec-environment overlay (the child environment
is replaced, not merged with the ambient one) and both stdout and stderr
connected to the results sink. -/
theorem C7_env_replaced_stdio_sink (cfg : Config) (rcfg : RunConfig)
    (w : RunWorld) (inv : Invocation)
    (h : inv ∈ invocations (run cfg rcfg w).1) :
    inv.env = collapse cfg.execEnv ∧ inv.stdout = rcfg.results
    ∧ inv.stderr = rcfg.results := by
  unfold run at h
  obtain ⟨b, _, he⟩ := mem_invocations_runLoop cfg rcfg w cockroachVariants 0 inv h
  subst he
  exact ⟨rfl, rfl, rfl⟩

/-- C7 witness: the first variant's invocation in a concrete all-success run
carries the collapsed exec environment and the results sink on both streams. -/
theorem C7_env_replaced_stdio_sink_witness :
    (runInvocation cfgEx rcfgEx "kv0/nodes=1").env = collapse cfgEx.execEnv
    ∧ (runInvocation cfgEx rcfgEx "kv0/nodes=1").stdout = rcfgEx.results
    ∧ (runInvocation cfgEx rcfgEx "kv0/nodes=1").stderr = rcfgEx.results :=
  C7_env_replaced_stdio_sink cfgEx rcfgEx wAllOk
    (runInvocation cfgEx rcfgEx "kv0/nodes=1")
    (by
      unfold run
      rw [runLoop_allSuccess cfgEx rcfgEx wAllOk (fun _ => rfl) (fun _ => rfl)
          cockroachVariants 0]
      simp only [invocations_successTrace]
      exact List.mem_map_of_mem _ (by decide))

/-- C10: a failure of the scratch-directory purge itself is fatal in `Run`:
if the purge after the (successful) variant at index `k` fails, `Run` returns
the purge error at once, having invoked only the `k + 1` variants so far and
none of the remaining ones. -/
theorem C10_purge_failure_is_fatal (cfg : Config) (rcfg : RunConfig)
    (w : RunWorld) (k : Nat) (e : String)
    (hk : k < cockroachVariants.length)
    (hx : ∀ j, j ≤ k → w.execErr j = none)
    (hplt : ∀ j, j < k → w.purgeErr j = none)
    (hpk : w.purgeErr k = some e) :
    (run cfg rcfg w).2 = some e
    ∧ invokeCount (run cfg rcfg w).1 = k + 1 := by
  have hx0 : ∀ j, j ≤ k → w.execErr (0 + j) = none := fun j hj => by
    simpa using hx j hj
  have hplt0 : ∀ j, j < k → w.purgeErr (0 + j) = none := fun j hj => by
    simpa using hplt j hj
  have hpk0 : w.purgeErr (0 + k) = some e := by simpa using hpk
  have h := runLoop_firstPurgeFail cfg rcfg w cockroachVariants 0 k e hk hx0 hplt0 hpk0
  have h6 : cockroachVariants.length = 6 := rfl
  rw [h6] at hk
  constructor
  · simp [run, h]
  · simp only [run, h, invokeCount, invocations_append, invocations_successTrace]
    simp [invocations, List.length_take, h6]
    omega

/-- C10 witness: a concrete run whose first purge fails returns the purge
error after exactly one invocation. -/
theorem C10_purge_failure_is_fatal_witness :
    (run cfgEx rcfgEx wPurgeFail0).2 = some "purge failed"
    ∧ invokeCount (run cfgEx rcfgEx wPurgeFail0).1 = 1 :=
  C10_purge_failure_is_fatal cfgEx rcfgEx wPurgeFail0 0 "purge failed"
    (by decide) (fun j _ => rfl) (fun j hj => absurd hj (Nat.not_lt_zero j)) rfl

end Sweet
